import Mathlib

/-!
Shallow embedding of the mahjong club scoreboard (models.py, views.py).
Monetary values are represented in integer cents: the source stores
2-decimal-place decimals, so every representable amount is an exact
integer number of cents and all additions/comparisons are exact.
-/

namespace Mahjong

/-- Transaction types. `PAYIN_OUT` embeds the literal string "PAYIN/OUT"
used by `add_transaction_htmx` and the `new_week` preview; `PAYIN` and
`PAYOUT` are the model-choice types offered by `TransactionForm`. -/
inductive TxType where
  | PAYIN | PAYOUT | SESSION | CASHBACK | CASHBACK_DEDUCTION | POOL_ADDITION | PAYIN_OUT
deriving DecidableEq

inductive Weekday where
  | Monday | Tuesday | Wednesday | Thursday | Friday | Saturday | Sunday
deriving DecidableEq

structure Player where
  id : Nat
  name : String
  total_score : Int
deriving DecidableEq

structure Week where
  id : Nat
  week_number : Int
  year : Int
  start_date : Nat
  end_date : Option Nat
  is_current : Bool
deriving DecidableEq

structure Transaction where
  id : Nat
  player : Option Nat
  week : Nat
  transaction_type : TxType
  weekday : Option Weekday
  value : Int
  description : String
  is_reverted : Bool
deriving DecidableEq

/-- Database state: rows of the three tables, the Pool singleton's
balance, fresh-id counters, and the clock (`timezone.now().date()` as a
day ordinal plus its year). -/
structure State where
  players : List Player
  weeks : List Week
  transactions : List Transaction
  pool_balance : Int
  next_tx_id : Nat
  next_week_id : Nat
  today : Nat
  today_year : Int
deriving DecidableEq

/-- Django raises IntegrityError on a `unique_together` violation. -/
inductive DbError where
  | integrityError
deriving DecidableEq

def exceptOk {e a : Type} : Except e a → Option a
  | .ok x => some x
  | .error _ => none

def isOkB {e a : Type} : Except e a → Bool
  | .ok _ => true
  | .error _ => false

/-- `Week.Meta.ordering = ['-year', '-week_number']`: `a` sorts before `b`
when it has the larger (year, week_number) key. -/
def weekOrderedBefore (a b : Week) : Bool :=
  b.year < a.year || (a.year == b.year && b.week_number < a.week_number)

/-- `queryset.first()` under the model's default ordering. -/
def firstByOrdering : List Week → Option Week
  | [] => none
  | w :: ws => some (ws.foldl (fun best x => if weekOrderedBefore x best then x else best) w)

def currentWeeks (s : State) : List Week := s.weeks.filter (·.is_current)

/-- `Week.objects.create(...)`; fails when `(week_number, year)` collides
with an existing row (`unique_together`). -/
def createWeek (s : State) (wn : Int) (yr : Int) (start : Nat) (cur : Bool) :
    Except DbError (Week × State) :=
  if s.weeks.any (fun w => w.week_number == wn && w.year == yr) then
    .error .integrityError
  else
    let w : Week :=
      { id := s.next_week_id, week_number := wn, year := yr,
        start_date := start, end_date := none, is_current := cur }
    .ok (w, { s with weeks := s.weeks ++ [w], next_week_id := s.next_week_id + 1 })

/-- `Week.get_current_week`: the first `is_current=True` row, lazily
creating week 1 of the current year when none exists. -/
def get_current_week (s : State) : Except DbError (Week × State) :=
  match firstByOrdering (currentWeeks s) with
  | some w => .ok (w, s)
  | none => createWeek s 1 s.today_year s.today true

/-- `Transaction.objects.create(...)`. -/
def createTx (s : State) (pid : Option Nat) (wid : Nat) (ty : TxType)
    (wd : Option Weekday) (v : Int) (descr : String) : Transaction × State :=
  let t : Transaction :=
    { id := s.next_tx_id, player := pid, week := wid, transaction_type := ty,
      weekday := wd, value := v, description := descr, is_reverted := false }
  (t, { s with transactions := s.transactions ++ [t], next_tx_id := s.next_tx_id + 1 })

def sumValues (l : List Transaction) : Int := (l.map (·.value)).sum

/-- Sum of a player's transaction values in a given week (the aggregate
used by `get_weekly_total` and twice inside `apply_cashback`): no
transaction-type filter at all. -/
def weekTotalFor (txs : List Transaction) (pid : Nat) (wid : Nat) : Int :=
  sumValues (txs.filter (fun t => t.player == some pid && t.week == wid))

/-- `Player.get_weekly_total`: reads `Week.get_current_week()` (which may
lazily create a week, hence the state threading) and sums ALL of the
player's transaction values in that week. -/
def get_weekly_total (s : State) (pid : Nat) : Except DbError (Int × State) := do
  let (cw, s1) ← get_current_week s
  .ok (weekTotalFor s1.transactions pid cw.id, s1)

/-- The running total of the first player row with the given id. -/
def playerScore (s : State) (pid : Nat) : Int :=
  match s.players.find? (fun p => p.id == pid) with
  | some p => p.total_score
  | none => 0

/-- `player.total_score += d; player.save()`. -/
def updatePlayerScore (ps : List Player) (pid : Nat) (d : Int) : List Player :=
  ps.map (fun p => if p.id == pid then { p with total_score := p.total_score + d } else p)

/-- The tier of `apply_cashback`'s first loop:
`50 if -500 < weekly_total <= -200, 100 if weekly_total <= -500, else 0`. -/
def cashbackAmount (weekly_total : Int) : Int :=
  if weekly_total ≤ -20000 ∧ -50000 < weekly_total then 5000
  else if weekly_total ≤ -50000 then 10000
  else 0

/-- First loop of `apply_cashback`: for each player (in registry order),
recompute the week's total, create a CASHBACK transaction when the tier
is positive, and accumulate `cashback_total`. -/
def cashbackLoop : List Player → Nat → State → Int → State × Int
  | [], _, s, total => (s, total)
  | p :: ps, wid, s, total =>
      let wt := weekTotalFor s.transactions p.id wid
      let cb := cashbackAmount wt
      if 0 < cb then
        let s1 := (createTx s (some p.id) wid .CASHBACK none cb
          ("Cashback for losses of " ++ toString wt)).2
        cashbackLoop ps wid s1 (total + cb)
      else cashbackLoop ps wid s total

/-- Winning players of the week, with their (recomputed) weekly totals. -/
def winnersOf (s : State) (wid : Nat) : List (Player × Int) :=
  s.players.filterMap (fun p =>
    let wt := weekTotalFor s.transactions p.id wid
    if 0 < wt then some (p, wt) else none)

/-- Stable insertion for descending sort by winning amount. -/
def insertDesc (x : Player × Int) : List (Player × Int) → List (Player × Int)
  | [] => [x]
  | y :: ys => if y.2 ≤ x.2 then x :: y :: ys else y :: insertDesc x ys

/-- `winners.sort(key=lambda x: x[1], reverse=True)`: stable, descending. -/
def sortWinners : List (Player × Int) → List (Player × Int)
  | [] => []
  | x :: xs => insertDesc x (sortWinners xs)

/-- `Decimal.quantize(Decimal('0.01'))` with the default ROUND_HALF_EVEN,
applied to the exact quotient `n / d` (in cents), `d > 0`. -/
def roundHalfEven (n d : Int) : Int :=
  let f := Int.fdiv n d
  let r2 := 2 * (n - f * d)
  if r2 < d then f
  else if d < r2 then f + 1
  else if f % 2 == 0 then f else f + 1

/-- Deduction loop of `apply_cashback`: every winner but the last is
deducted the quantized per-winner share; the last winner gets
`cashback_total - distributed`. Returns the state and the final
`distributed` accumulator. -/
def deductLoop (wid : Nat) (total per_winner : Int) :
    List (Player × Int) → Int → State → State × Int
  | [], distributed, s => (s, distributed)
  | [(p, _)], distributed, s =>
      let ded := total - distributed
      let s1 := (createTx s (some p.id) wid .CASHBACK_DEDUCTION none (-ded)
        "Cashback deduction").2
      (s1, distributed + ded)
  | (p, _) :: q :: rest, distributed, s =>
      let s1 := (createTx s (some p.id) wid .CASHBACK_DEDUCTION none (-per_winner)
        "Cashback deduction").2
      deductLoop wid total per_winner (q :: rest) (distributed + per_winner) s1

/-- `Week.apply_cashback(week)`. -/
def apply_cashback (s : State) (wid : Nat) : State :=
  let r := cashbackLoop s.players wid s 0
  let s1 := r.1
  let cashback_total := r.2
  if 0 < cashback_total then
    match sortWinners (winnersOf s1 wid) with
    | [] => s1
    | w :: ws =>
        let winners := w :: ws
        let per_winner := roundHalfEven cashback_total (winners.length : Int)
        let r2 := deductLoop wid cashback_total per_winner winners 0 s1
        let s2 := r2.1
        let remainder := cashback_total - r2.2
        if 0 < remainder then
          let s3 := { s2 with pool_balance := s2.pool_balance + remainder }
          (createTx s3 none wid .POOL_ADDITION none remainder
            "Cashback distribution remainder").2
        else s2
  else s1

/-- `week.save()` after mutating fields of a fetched row. -/
def updateWeek (ws : List Week) (w : Week) : List Week :=
  ws.map (fun x => if x.id == w.id then w else x)

/-- The totals loop of `start_new_week`: for each player,
`player.total_score += player.get_weekly_total()`. Note that
`get_weekly_total` consults `Week.get_current_week()` at each call. -/
def playersLoop : List Player → State → Except DbError State
  | [], s => .ok s
  | p :: ps, s => do
      let (wt, s1) ← get_weekly_total s p.id
      playersLoop ps { s1 with players := updatePlayerScore s1.players p.id wt }

/-- `Week.start_new_week` (the settlement / "New Week" operation):
close the current week, run the per-player totals loop, apply cashback
to the closed week, then create the successor week. -/
def start_new_week (s : State) : Except DbError (Week × State) := do
  let (cw, s0) ← get_current_week s
  let cwClosed := { cw with is_current := false, end_date := some s0.today : Week }
  let s1 := { s0 with weeks := updateWeek s0.weeks cwClosed }
  let s2 ← playersLoop s1.players s1
  let s3 := apply_cashback s2 cw.id
  let (nw, s4) ← createWeek s3 (cw.week_number + 1) cw.year s3.today true
  .ok (nw, s4)

/-- `Transaction.revert` (models.py): when not yet reverted, append the
compensating transaction (same player/week/type/weekday, value negated,
description naming the original id) and mark the original reverted. -/
def Transaction.revert (s : State) (t : Transaction) : State :=
  if t.is_reverted then s
  else
    let s1 := (createTx s t.player t.week t.transaction_type t.weekday (-t.value)
      ("Reversal of transaction #" ++ toString t.id)).2
    let marked := s1.transactions.map
      (fun x => if x.id == t.id then { x with is_reverted := true } else x)
    { s1 with transactions := marked }

inductive RevertError where
  | notFound
  | staleWeek
  | alreadyReverted
  | dbError (e : DbError)
deriving DecidableEq

/-- `views.revert_transaction`: 404 on unknown id; reject ("Only
transactions from the current week can be reverted.") when the week is
not current; warn ("already been reverted") when `is_reverted`;
otherwise run `Transaction.revert`. -/
def revert_transaction (s : State) (txid : Nat) : Except RevertError State :=
  match s.transactions.find? (fun t => t.id == txid) with
  | none => .error .notFound
  | some t =>
    match get_current_week s with
    | .error e => .error (.dbError e)
    | .ok (cw, s1) =>
      if t.week ≠ cw.id then .error .staleWeek
      else if t.is_reverted then .error .alreadyReverted
      else .ok (Transaction.revert s1 t)

inductive PostError where
  | invalidForm
  | missingWeekday
  | dbError (e : DbError)
deriving DecidableEq

/-- `TransactionForm` validity: player chosen from the registry, type
restricted to the form's choices (SESSION, PAYIN, PAYOUT). -/
def formOk (s : State) (pid : Option Nat) (ty : TxType) : Bool :=
  (match pid with
   | some p => s.players.any (fun q => q.id == p)
   | none => false) &&
  (ty == .SESSION || ty == .PAYIN || ty == .PAYOUT)

/-- `views.add_transaction`: form validation, week assignment, the
SESSION-requires-weekday check, the (form-unreachable) immediate
total_score update for type "PAYIN/OUT", then save. -/
def add_transaction (s : State) (pid : Option Nat) (ty : TxType)
    (wd : Option Weekday) (v : Int) (descr : String) : Except PostError State :=
  if formOk s pid ty then
    match get_current_week s with
    | .error e => .error (.dbError e)
    | .ok (cw, s1) =>
      if ty == .SESSION && wd == none then .error .missingWeekday
      else
        let s2 := match pid with
          | some p => if ty == .PAYIN_OUT then
              { s1 with players := updatePlayerScore s1.players p v } else s1
          | none => s1
        .ok (createTx s2 pid cw.id ty wd v descr).2
  else .error .invalidForm

inductive HtmxError where
  | badRequest
  | dbError (e : DbError)
deriving DecidableEq

/-- `views.add_session_htmx`: create a SESSION transaction for the
current week; never touches total_score. -/
def add_session_htmx (s : State) (pid : Nat) (wd : Weekday) (v : Int) :
    Except HtmxError State :=
  if s.players.any (fun q => q.id == pid) then
    match get_current_week s with
    | .error e => .error (.dbError e)
    | .ok (cw, s1) => .ok (createTx s1 (some pid) cw.id .SESSION (some wd) v "").2
  else .error .badRequest

/-- `views.add_transaction_htmx`: only type "PAYIN/OUT" is accepted;
create the transaction, then `player.total_score += value`. -/
def add_transaction_htmx (s : State) (pid : Nat) (ty : TxType) (v : Int) :
    Except HtmxError State :=
  if ty ≠ TxType.PAYIN_OUT then .error .badRequest
  else if s.players.any (fun q => q.id == pid) then
    match get_current_week s with
    | .error e => .error (.dbError e)
    | .ok (cw, s1) =>
      let s2 := (createTx s1 (some pid) cw.id ty none v "").2
      .ok { s2 with players := updatePlayerScore s2.players pid v }
  else .error .badRequest

/-- Per-weekday SESSION sum across all players for a week (the `day_total`
aggregate of `add_session_htmx`, and the quantity §4.3 step 1 of the spec
claims is validated at settlement). -/
def weekdaySessionSum (s : State) (wid : Nat) (d : Weekday) : Int :=
  sumValues (s.transactions.filter (fun t =>
    t.transaction_type == .SESSION && t.week == wid && t.weekday == some d))

/-- Spec-side definition, following §4.2 `sessionTotal(player, week)`:
sum of SESSION transaction values only, for comparison with the source's
`get_weekly_total`. -/
def sessionTotalSpec (s : State) (pid : Nat) (wid : Nat) : Int :=
  sumValues (s.transactions.filter (fun t =>
    t.player == some pid && t.week == wid && t.transaction_type == .SESSION))

/-- Sum of a player's non-SESSION transaction values in a week. -/
def nonSessionTotal (s : State) (pid : Nat) (wid : Nat) : Int :=
  sumValues (s.transactions.filter (fun t =>
    t.player == some pid && t.week == wid && !(t.transaction_type == .SESSION)))

/-- The cashback preview of `views.new_week` (GET branch), as a pure
function of a player's weekly total: returns
(cashback_change to the player, contribution to `total_cashback`). -/
def new_week_cashback_change (weekly_total : Int) : Int × Int :=
  if 50000 ≤ weekly_total then (-10000, 10000)
  else if 20000 ≤ weekly_total then (-5000, 5000)
  else if weekly_total ≤ -20000 ∧ -50000 < weekly_total then (5000, -5000)
  else if weekly_total ≤ -50000 then (10000, -10000)
  else (0, 0)

/-! ### Frame lemmas for the cashback pass -/

theorem cashbackLoop_weeks (wid : Nat) :
    ∀ (ps : List Player) (s : State) (tot : Int),
      ((cashbackLoop ps wid s tot).1).weeks = s.weeks := by
  intro ps
  induction ps with
  | nil => intro s tot; rfl
  | cons p ps ih =>
      intro s tot
      simp only [cashbackLoop]
      split
      · exact ih _ _
      · exact ih _ _

theorem cashbackLoop_players (wid : Nat) :
    ∀ (ps : List Player) (s : State) (tot : Int),
      ((cashbackLoop ps wid s tot).1).players = s.players := by
  intro ps
  induction ps with
  | nil => intro s tot; rfl
  | cons p ps ih =>
      intro s tot
      simp only [cashbackLoop]
      split
      · exact ih _ _
      · exact ih _ _

theorem cashbackLoop_pool (wid : Nat) :
    ∀ (ps : List Player) (s : State) (tot : Int),
      ((cashbackLoop ps wid s tot).1).pool_balance = s.pool_balance := by
  intro ps
  induction ps with
  | nil => intro s tot; rfl
  | cons p ps ih =>
      intro s tot
      simp only [cashbackLoop]
      split
      · exact ih _ _
      · exact ih _ _

theorem deductLoop_weeks (wid : Nat) (total per : Int) :
    ∀ (l : List (Player × Int)) (d : Int) (s : State),
      ((deductLoop wid total per l d s).1).weeks = s.weeks := by
  intro l
  induction l with
  | nil => intro d s; rfl
  | cons x xs ih =>
      intro d s
      cases xs with
      | nil => obtain ⟨p, w⟩ := x; rfl
      | cons y ys =>
          obtain ⟨p, w⟩ := x
          simp only [deductLoop]
          exact ih _ _

theorem deductLoop_players (wid : Nat) (total per : Int) :
    ∀ (l : List (Player × Int)) (d : Int) (s : State),
      ((deductLoop wid total per l d s).1).players = s.players := by
  intro l
  induction l with
  | nil => intro d s; rfl
  | cons x xs ih =>
      intro d s
      cases xs with
      | nil => obtain ⟨p, w⟩ := x; rfl
      | cons y ys =>
          obtain ⟨p, w⟩ := x
          simp only [deductLoop]
          exact ih _ _

theorem deductLoop_pool (wid : Nat) (total per : Int) :
    ∀ (l : List (Player × Int)) (d : Int) (s : State),
      ((deductLoop wid total per l d s).1).pool_balance = s.pool_balance := by
  intro l
  induction l with
  | nil => intro d s; rfl
  | cons x xs ih =>
      intro d s
      cases xs with
      | nil => obtain ⟨p, w⟩ := x; rfl
      | cons y ys =>
          obtain ⟨p, w⟩ := x
          simp only [deductLoop]
          exact ih _ _

/-- The deduction loop's `distributed` accumulator always comes out equal
to `cashback_total` when at least one winner exists: the last winner is
assigned `total - distributed`, absorbing any rounding difference. -/
theorem deductLoop_distributed (wid : Nat) (total per : Int) :
    ∀ (l : List (Player × Int)) (d : Int) (s : State), l ≠ [] →
      (deductLoop wid total per l d s).2 = total := by
  intro l
  induction l with
  | nil => intro d s h; exact absurd rfl h
  | cons x xs ih =>
      intro d s _
      cases xs with
      | nil => obtain ⟨p, w⟩ := x; simp only [deductLoop]; omega
      | cons y ys =>
          obtain ⟨p, w⟩ := x
          simp only [deductLoop]
          exact ih _ _ (List.cons_ne_nil _ _)

theorem apply_cashback_weeks (s : State) (wid : Nat) :
    (apply_cashback s wid).weeks = s.weeks := by
  unfold apply_cashback
  dsimp only
  split
  · split
    · exact cashbackLoop_weeks _ _ _ _
    · split
      · rw [deductLoop_weeks]; exact cashbackLoop_weeks _ _ _ _
      · rw [deductLoop_weeks]; exact cashbackLoop_weeks _ _ _ _
  · exact cashbackLoop_weeks _ _ _ _

/-- The cashback pass never touches any player row: in particular every
`Player.total_score` is unchanged. -/
theorem apply_cashback_players (s : State) (wid : Nat) :
    (apply_cashback s wid).players = s.players := by
  unfold apply_cashback
  dsimp only
  split
  · split
    · exact cashbackLoop_players _ _ _ _
    · split
      · rw [deductLoop_players]; exact cashbackLoop_players _ _ _ _
      · rw [deductLoop_players]; exact cashbackLoop_players _ _ _ _
  · exact cashbackLoop_players _ _ _ _

/-- `Pool.balance` is never modified by the cashback pass: for a nonempty
winner list the distributed amount equals `cashback_total`, so the
remainder branch is dead; with no winners the pool code is skipped. -/
theorem apply_cashback_pool (s : State) (wid : Nat) :
    (apply_cashback s wid).pool_balance = s.pool_balance := by
  unfold apply_cashback
  dsimp only
  split
  · split
    · exact cashbackLoop_pool _ _ _ _
    · rename_i w ws hw
      split
      · rename_i hrem
        rw [deductLoop_distributed _ _ _ (w :: ws) 0 _ (List.cons_ne_nil _ _)] at hrem
        exact absurd hrem (by omega)
      · rw [deductLoop_pool]; exact cashbackLoop_pool _ _ _ _
  · exact cashbackLoop_pool _ _ _ _

/-! ### Which transactions the cashback pass can create -/

theorem createTx_mem (s : State) (pid : Option Nat) (wid : Nat) (ty : TxType)
    (wd : Option Weekday) (v : Int) (descr : String) (t : Transaction)
    (h : t ∈ ((createTx s pid wid ty wd v descr).2).transactions) :
    t ∈ s.transactions ∨ (t.week = wid ∧ t.transaction_type = ty) := by
  simp only [createTx, List.mem_append, List.mem_singleton] at h
  rcases h with h | h
  · exact Or.inl h
  · subst h; exact Or.inr ⟨rfl, rfl⟩

theorem cashbackLoop_mem (wid : Nat) :
    ∀ (ps : List Player) (s : State) (tot : Int) (t : Transaction),
      t ∈ ((cashbackLoop ps wid s tot).1).transactions →
      t ∈ s.transactions ∨ (t.week = wid ∧ t.transaction_type = .CASHBACK) := by
  intro ps
  induction ps with
  | nil => intro s tot t h; exact Or.inl h
  | cons p ps ih =>
      intro s tot t h
      simp only [cashbackLoop] at h
      split at h
      · rcases ih _ _ _ h with h1 | h1
        · exact createTx_mem _ _ _ _ _ _ _ _ h1
        · exact Or.inr h1
      · exact ih _ _ _ h

theorem deductLoop_mem (wid : Nat) (total per : Int) :
    ∀ (l : List (Player × Int)) (d : Int) (s : State) (t : Transaction),
      t ∈ ((deductLoop wid total per l d s).1).transactions →
      t ∈ s.transactions ∨ (t.week = wid ∧ t.transaction_type = .CASHBACK_DEDUCTION) := by
  intro l
  induction l with
  | nil => intro d s t h; exact Or.inl h
  | cons x xs ih =>
      intro d s t h
      cases xs with
      | nil =>
          obtain ⟨p, w⟩ := x
          simp only [deductLoop] at h
          exact createTx_mem _ _ _ _ _ _ _ _ h
      | cons y ys =>
          obtain ⟨p, w⟩ := x
          simp only [deductLoop] at h
          rcases ih _ _ _ h with h1 | h1
          · exact createTx_mem _ _ _ _ _ _ _ _ h1
          · exact Or.inr h1

/-- Every transaction present after the cashback pass either was already
there or is a CASHBACK / CASHBACK_DEDUCTION row of the settled week; in
particular no POOL_ADDITION row is ever created. -/
theorem apply_cashback_mem (s : State) (wid : Nat) (t : Transaction)
    (h : t ∈ (apply_cashback s wid).transactions) :
    t ∈ s.transactions ∨
      (t.week = wid ∧
        (t.transaction_type = .CASHBACK ∨ t.transaction_type = .CASHBACK_DEDUCTION)) := by
  have base : ∀ u : Transaction,
      u ∈ ((cashbackLoop s.players wid s 0).1).transactions →
      u ∈ s.transactions ∨
        (u.week = wid ∧
          (u.transaction_type = .CASHBACK ∨ u.transaction_type = .CASHBACK_DEDUCTION)) := by
    intro u hu
    rcases cashbackLoop_mem wid s.players s 0 u hu with h1 | h1
    · exact Or.inl h1
    · exact Or.inr ⟨h1.1, Or.inl h1.2⟩
  unfold apply_cashback at h
  dsimp only at h
  split at h
  · split at h
    · exact base t h
    · rename_i w ws hw
      split at h
      · rename_i hrem
        rw [deductLoop_distributed _ _ _ (w :: ws) 0 _ (List.cons_ne_nil _ _)] at hrem
        exact absurd hrem (by omega)
      · rcases deductLoop_mem _ _ _ _ _ _ _ h with h1 | h1
        · exact base t h1
        · exact Or.inr ⟨h1.1, Or.inr h1.2⟩
  · exact base t h

/-! ### Current-week queries -/

theorem get_current_week_eq (s : State) (cw : Week)
    (hc : firstByOrdering (currentWeeks s) = some cw) :
    get_current_week s = .ok (cw, s) := by
  unfold get_current_week
  rw [hc]

/-- With a current week present, `get_weekly_total` returns the sum of
the player's transaction values restricted to that week, and performs no
write. -/
theorem get_weekly_total_eq (s : State) (pid : Nat) (cw : Week)
    (hc : firstByOrdering (currentWeeks s) = some cw) :
    get_weekly_total s pid = .ok (weekTotalFor s.transactions pid cw.id, s) := by
  unfold get_weekly_total
  rw [get_current_week_eq s cw hc]
  rfl

/-- Appending a transaction belonging to another week never changes
`weekTotalFor`. -/
theorem weekTotalFor_append_ne (txs : List Transaction) (t : Transaction)
    (pid wid : Nat) (h : t.week ≠ wid) :
    weekTotalFor (txs ++ [t]) pid wid = weekTotalFor txs pid wid := by
  have hb : (t.player == some pid && t.week == wid) = false := by
    have hw : (t.week == wid) = false := by
      simp [h]
    simp [hw]
  simp [weekTotalFor, List.filter_append, List.filter_cons, hb, sumValues]

/-- Splitting an aggregate along a second predicate. -/
theorem sumValues_filter_split (l : List Transaction) (P Q : Transaction → Bool) :
    sumValues (l.filter P)
      = sumValues (l.filter fun t => P t && Q t)
        + sumValues (l.filter fun t => P t && !(Q t)) := by
  induction l with
  | nil => rfl
  | cons t l ih =>
      cases hP : P t <;> cases hQ : Q t <;>
        simp [List.filter_cons, hP, hQ, sumValues] at * <;> omega

/-! ### Player-row lemmas -/

theorem find?_update (ps : List Player) (pid : Nat) (v : Int) (p : Player)
    (h : ps.find? (fun q => q.id == pid) = some p) :
    (updatePlayerScore ps pid v).find? (fun q => q.id == pid)
      = some { p with total_score := p.total_score + v } := by
  induction ps with
  | nil => simp [List.find?] at h
  | cons x xs ih =>
      cases hid : (x.id == pid) with
      | true =>
          simp only [List.find?, hid] at h
          injection h with h
          subst h
          simp [updatePlayerScore, List.find?, hid]
      | false =>
          simp only [List.find?, hid] at h
          simpa [updatePlayerScore, List.find?, hid] using ih h

theorem find?_of_any (ps : List Player) (pid : Nat)
    (h : ps.any (fun q => q.id == pid) = true) :
    ∃ p, ps.find? (fun q => q.id == pid) = some p := by
  induction ps with
  | nil => simp at h
  | cons x xs ih =>
      cases hid : (x.id == pid) with
      | true => exact ⟨x, by simp [List.find?, hid]⟩
      | false =>
          have h2 : xs.any (fun q => q.id == pid) = true := by
            simpa [List.any_cons, hid] using h
          obtain ⟨p, hp⟩ := ih h2
          exact ⟨p, by simp [List.find?, hid, hp]⟩

/-! ### Revert lemmas -/

/-- The compensating transaction appended by `Transaction.revert`. -/
def compTxOf (s : State) (t : Transaction) : Transaction :=
  { id := s.next_tx_id, player := t.player, week := t.week,
    transaction_type := t.transaction_type, weekday := t.weekday, value := -t.value,
    description := "Reversal of transaction #" ++ toString t.id, is_reverted := false }

/-- Flip `is_reverted` on the row with the given id, touching nothing
else (in particular no `value` is mutated). -/
def markReverted (txs : List Transaction) (i : Nat) : List Transaction :=
  txs.map (fun x => if x.id == i then { x with is_reverted := true } else x)

theorem get_current_week_players (s : State) {cw : Week} {s1 : State}
    (h : get_current_week s = .ok (cw, s1)) : s1.players = s.players := by
  unfold get_current_week at h
  cases hfb : firstByOrdering (currentWeeks s) with
  | some w =>
      rw [hfb] at h
      dsimp only at h
      injection h with h
      have h2 : s = s1 := congrArg Prod.snd h
      rw [← h2]
  | none =>
      rw [hfb] at h
      dsimp only at h
      unfold createWeek at h
      split at h
      · exact absurd h (by simp)
      · injection h with h
        have h2 : _ = s1 := congrArg Prod.snd h
        rw [← h2]

theorem revert_players (s : State) (t : Transaction) :
    (Transaction.revert s t).players = s.players := by
  unfold Transaction.revert
  split <;> rfl

/-- The success path of `views.revert_transaction`, in closed form:
the ledger becomes the old rows with the original's `is_reverted` flag
set (values untouched) plus exactly one appended compensating row. -/
theorem revert_transaction_ok (s : State) (txid : Nat) (t : Transaction) (cw : Week)
    (hfind : s.transactions.find? (fun x => x.id == txid) = some t)
    (hc : firstByOrdering (currentWeeks s) = some cw)
    (hweek : t.week = cw.id) (hrev : t.is_reverted = false)
    (hwf : ∀ u ∈ s.transactions, u.id < s.next_tx_id) :
    revert_transaction s txid =
      .ok { s with transactions := markReverted s.transactions t.id ++ [compTxOf s t],
                   next_tx_id := s.next_tx_id + 1 } := by
  have htmem : t ∈ s.transactions := List.mem_of_find?_eq_some hfind
  have hlt : t.id < s.next_tx_id := hwf t htmem
  have hcid : ((compTxOf s t).id == t.id) = false := by
    simp only [compTxOf]
    simp only [beq_eq_false_iff_ne, ne_eq]
    omega
  unfold revert_transaction
  rw [hfind, get_current_week_eq s cw hc]
  dsimp only
  rw [if_neg (by simp [hweek])]
  rw [if_neg (by simp [hrev])]
  unfold Transaction.revert
  rw [if_neg (by simp [hrev])]
  simp only [createTx, List.map_append, List.map_cons, List.map_nil, markReverted, compTxOf]
  rw [if_neg (by simpa [compTxOf] using hcid)]

/-- `find?` commutes with a map that preserves the searched predicate. -/
theorem find?_map_pred {α : Type} (f : α → α) (q : α → Bool)
    (hf : ∀ x, q (f x) = q x) :
    ∀ l : List α, (l.map f).find? q = (l.find? q).map f := by
  intro l
  induction l with
  | nil => rfl
  | cons x xs ih =>
      rw [List.map_cons]
      cases hq : q x
      · rw [List.find?_cons_of_neg _ (by rw [hf x, hq]; simp),
          List.find?_cons_of_neg _ (by simp [hq]), ih]
      · rw [List.find?_cons_of_pos _ (by rw [hf x, hq]),
          List.find?_cons_of_pos _ hq]
        rfl

/-! ### Concrete states used to settle the claims -/

def aPlayer : Player := { id := 0, name := "A", total_score := 0 }
def bPlayer : Player := { id := 1, name := "B", total_score := 0 }

def wk2024 : Week :=
  { id := 0, week_number := 1, year := 2024, start_date := 0,
    end_date := none, is_current := true }

def sessionTx (i pid : Nat) (v : Int) : Transaction :=
  { id := i, player := some pid, week := 0, transaction_type := .SESSION,
    weekday := some .Monday, value := v, description := "", is_reverted := false }

/-- One player, one Monday SESSION transaction of value `v` in the
current week (week 1 of 2024), clock in 2025. -/
def c1state (v : Int) : State :=
  { players := [aPlayer], weeks := [wk2024], transactions := [sessionTx 0 0 v],
    pool_balance := 0, next_tx_id := 1, next_week_id := 1, today := 100, today_year := 2025 }

/-- `c1state v` as it stands right after `start_new_week`'s totals loop:
week 1/2024 closed, the lazily created week 1/2025 (id 1) current, every
total_score unchanged. -/
def c1mid (v : Int) : State :=
  { players := [aPlayer],
    weeks := [{ wk2024 with is_current := false, end_date := some 100 },
              { id := 1, week_number := 1, year := 2025, start_date := 100,
                end_date := none, is_current := true }],
    transactions := [sessionTx 0 0 v],
    pool_balance := 0, next_tx_id := 1, next_week_id := 2, today := 100, today_year := 2025 }

theorem c1_settle_unfold (v : Int) :
    start_new_week (c1state v)
      = (do
          let (nw, s4) ← createWeek (apply_cashback (c1mid v) 0) 2 2024
            ((apply_cashback (c1mid v) 0).today) true
          Except.ok (nw, s4)) := rfl

def currentCount (s : State) : Nat := (s.weeks.filter (fun w => w.is_current)).length
def scoresOf (s : State) : List Int := s.players.map (fun p => p.total_score)
def weekFlags (s : State) : List (Bool × Option Nat) :=
  s.weeks.map (fun w => (w.is_current, w.end_date))

/-- C1, counterexample: in `c1state 10000` the Monday SESSION sum across
all players is 100.00 ≠ 0, yet `start_new_week` succeeds instead of
failing with any `UnbalancedWeekError`. -/
theorem C1_counterexample :
    weekdaySessionSum (c1state 10000) 0 Weekday.Monday ≠ 0 ∧
      isOkB (start_new_week (c1state 10000)) = true := by
  constructor
  · decide
  · decide

/-- C1 (amended): `start_new_week` performs no weekday-balance
validation at all: for every value `v` of the lone Monday SESSION
transaction — balanced or not — settlement proceeds and succeeds. -/
theorem C1_settle_ignores_imbalance (v : Int) :
    isOkB (start_new_week (c1state v)) = true := by
  rw [c1_settle_unfold v]
  unfold createWeek
  have hlist : (c1mid v).weeks
      = [{ wk2024 with is_current := false, end_date := some 100 },
         { id := 1, week_number := 1, year := 2025, start_date := 100,
           end_date := none, is_current := true }] := rfl
  rw [apply_cashback_weeks, hlist]
  rw [if_neg (by decide)]
  rfl

/-- Two players with balanced Monday SESSION scores +300 / -300 in the
current week (week 1 of 2024), clock in 2025: the §8 scenario state. -/
def c3state : State :=
  { players := [aPlayer, bPlayer],
    weeks := [wk2024],
    transactions := [sessionTx 0 0 30000, sessionTx 1 1 (-30000)],
    pool_balance := 0, next_tx_id := 2, next_week_id := 1, today := 100, today_year := 2025 }

/-- C3: evaluating the settlement on the balanced two-player scenario:
afterwards TWO weeks have `is_current = true` (the rollover week and the
week lazily created by `get_current_week` inside the totals loop), and
no player's total_score changed (the totals loop summed the lazily
created empty week). The prior week is closed with an end date, and the
pool is untouched. -/
theorem C3_settle_two_current_weeks :
    (exceptOk (start_new_week c3state)).map
        (fun r => (currentCount r.2, scoresOf r.2, weekFlags r.2, r.2.pool_balance))
      = some (2, [0, 0], [(false, some 100), (true, none), (true, none)], 0) := by
  rfl

/-- One player with a SESSION of 100.00 and a PAYIN of 50.00, both in
the current week. -/
def c4state : State :=
  { players := [aPlayer],
    weeks := [wk2024],
    transactions :=
      [sessionTx 0 0 10000,
       { id := 1, player := some 0, week := 0, transaction_type := .PAYIN,
         weekday := none, value := 5000, description := "", is_reverted := false }],
    pool_balance := 0, next_tx_id := 2, next_week_id := 1, today := 10, today_year := 2024 }

/-- C4, counterexample: `get_weekly_total` returns 150.00 (SESSION plus
PAYIN), not the 100.00 SESSION-only sum the claim asserts. -/
theorem C4_counterexample :
    (exceptOk (get_weekly_total c4state 0)).map Prod.fst = some 15000 ∧
      sessionTotalSpec c4state 0 0 = 10000 ∧ (15000 : Int) ≠ 10000 := by
  refine ⟨by decide, by decide, by decide⟩

/-- C4 (amended): the weekly total is the sum of ALL of the player's
transaction values in the current week — the SESSION sum plus the sum of
every non-SESSION (pay-in/out, cashback, ...) value — not the
SESSION-only `sessionTotal` of the spec. -/
theorem C4_weekly_total_all_types (s : State) (pid : Nat) (cw : Week)
    (hc : firstByOrdering (currentWeeks s) = some cw) :
    get_weekly_total s pid
      = .ok (sessionTotalSpec s pid cw.id + nonSessionTotal s pid cw.id, s) := by
  rw [get_weekly_total_eq s pid cw hc]
  have hsplit := sumValues_filter_split s.transactions
      (fun t => t.player == some pid && t.week == cw.id)
      (fun t => t.transaction_type == TxType.SESSION)
  unfold weekTotalFor sessionTotalSpec nonSessionTotal
  rw [hsplit]

/-- C4 witness: the amended statement evaluated on `c4state`. -/
theorem C4_weekly_total_all_types_witness :
    get_weekly_total c4state 0
      = .ok (sessionTotalSpec c4state 0 wk2024.id + nonSessionTotal c4state 0 wk2024.id,
             c4state) :=
  C4_weekly_total_all_types c4state 0 wk2024 (by decide)

/-- One player with a Monday SESSION loss of -300.00 in the current week
(week 1 of 2024), clock in 2025. -/
def c9state : State :=
  { players := [aPlayer], weeks := [wk2024], transactions := [sessionTx 0 0 (-30000)],
    pool_balance := 0, next_tx_id := 1, next_week_id := 1, today := 100, today_year := 2025 }

/-- A CASHBACK row living in a non-current week (id 5). -/
def c9extra : Transaction :=
  { id := 7, player := some 0, week := 5, transaction_type := .CASHBACK,
    weekday := none, value := 5000, description := "", is_reverted := false }

/-- C9, counterexample: the settled week's transaction sum for the
player is -300.00, yet the settlement leaves the player's total_score at
0 — the total_score updates are NOT computed from the settled week's
transactions (they are computed from the lazily recreated, empty,
current week). -/
theorem C9_counterexample :
    (exceptOk (start_new_week c9state)).map (fun r => scoresOf r.2) = some [0] ∧
      weekTotalFor c9state.transactions 0 0 = -30000 ∧ ((-30000 : Int) ≠ 0) := by
  refine ⟨by decide, by decide, by decide⟩

/-- C9 (amended): the cashback pass is total_score-neutral forever:
(1) `apply_cashback` never modifies any player row; (2) every
transaction it appends belongs to the settled week; (3) the weekly
total read by any later settlement sums only the then-current week, so
a row of a closed week — such as the appended CASHBACK /
CASHBACK_DEDUCTION rows — never contributes to it. -/
theorem C9_cashback_frame :
    (∀ (s : State) (wid : Nat), (apply_cashback s wid).players = s.players) ∧
      (∀ (s : State) (wid : Nat) (t : Transaction),
          t ∈ (apply_cashback s wid).transactions → t ∈ s.transactions ∨ t.week = wid) ∧
      (∀ (s : State) (pid : Nat) (cw : Week) (t : Transaction),
          firstByOrdering (currentWeeks s) = some cw → t.week ≠ cw.id →
          (exceptOk (get_weekly_total
              { s with transactions := s.transactions ++ [t] } pid)).map Prod.fst
            = (exceptOk (get_weekly_total s pid)).map Prod.fst) := by
  refine ⟨fun s wid => apply_cashback_players s wid, fun s wid t h => ?_, ?_⟩
  · rcases apply_cashback_mem s wid t h with h1 | h1
    · exact Or.inl h1
    · exact Or.inr h1.1
  · intro s pid cw t hc ht
    have hc2 : firstByOrdering
        (currentWeeks { s with transactions := s.transactions ++ [t] }) = some cw := hc
    rw [get_weekly_total_eq _ pid cw hc2, get_weekly_total_eq s pid cw hc]
    simp only [exceptOk, Option.map_some]
    rw [weekTotalFor_append_ne s.transactions t pid cw.id ht]
    rfl

/-- C9 witness: the frame property evaluated on `c9state` with a
closed-week CASHBACK row appended. -/
theorem C9_cashback_frame_witness :
    (exceptOk (get_weekly_total
        { c9state with transactions := c9state.transactions ++ [c9extra] } 0)).map Prod.fst
      = (exceptOk (get_weekly_total c9state 0)).map Prod.fst :=
  C9_cashback_frame.2.2 c9state 0 wk2024 c9extra (by decide) (by decide)

/-- C10: (1) with at least one winner the deduction loop's `distributed`
always comes out equal to `cashback_total` (the last winner absorbs the
rounding difference of the quantized share), so the post-distribution
remainder is zero; (2) `Pool.balance` is unchanged by `apply_cashback`
on every input state; (3) no POOL_ADDITION transaction is ever created
by it. -/
theorem C10_deduction_balance :
    (∀ (wid : Nat) (total per : Int) (l : List (Player × Int)) (s : State), l ≠ [] →
        (deductLoop wid total per l 0 s).2 = total) ∧
      (∀ (s : State) (wid : Nat), (apply_cashback s wid).pool_balance = s.pool_balance) ∧
      (∀ (s : State) (wid : Nat) (t : Transaction),
          t ∈ (apply_cashback s wid).transactions →
          t ∈ s.transactions ∨ t.transaction_type ≠ .POOL_ADDITION) := by
  refine ⟨fun wid total per l s h => deductLoop_distributed wid total per l 0 s h,
          fun s wid => apply_cashback_pool s wid,
          fun s wid t h => ?_⟩
  rcases apply_cashback_mem s wid t h with h1 | h1
  · exact Or.inl h1
  · rcases h1.2 with h2 | h2 <;> exact Or.inr (by simp [h2])

/-- C10 witness: one winner absorbing the whole 50.00 cashback total. -/
theorem C10_deduction_balance_witness :
    (deductLoop 0 5000 5000 [(aPlayer, 50000)] 0 (c1state 0)).2 = 5000 :=
  C10_deduction_balance.1 0 5000 5000 [(aPlayer, 50000)] (c1state 0) (by decide)

/-- Player A won +500.00, player B lost -300.00 in week 0. -/
def c2state : State :=
  { players := [aPlayer, bPlayer], weeks := [wk2024],
    transactions := [sessionTx 0 0 50000, sessionTx 1 1 (-30000)],
    pool_balance := 0, next_tx_id := 2, next_week_id := 1, today := 10, today_year := 2024 }

/-- C2: the claimed tier table is implemented only by the `new_week`
preview (`new_week_cashback_change` satisfies every listed equation),
while the settlement's `apply_cashback` deducts from the S = +500 winner
only 50.00 — the equal split of the cashback total — not the claimed
100.00 charge. -/
theorem C2_cashback_divergence :
    new_week_cashback_change 50000 = (-10000, 10000) ∧
      new_week_cashback_change 25000 = (-5000, 5000) ∧
      new_week_cashback_change (-30000) = (5000, -5000) ∧
      new_week_cashback_change (-60000) = (10000, -10000) ∧
      new_week_cashback_change 15000 = (0, 0) ∧
      new_week_cashback_change (-15000) = (0, 0) ∧
      new_week_cashback_change (-20000) = (5000, -5000) ∧
      ((apply_cashback c2state 0).transactions.filter
          (fun t => t.transaction_type == TxType.CASHBACK_DEDUCTION)).map
        (fun t => (t.player, t.value)) = [(some 0, -5000)] := by
  refine ⟨by decide, by decide, by decide, by decide, by decide, by decide, by decide,
    by decide⟩

/-- A registry with player A and the 2024 current week, empty ledger. -/
def c5state : State :=
  { players := [aPlayer], weeks := [wk2024], transactions := [],
    pool_balance := 0, next_tx_id := 0, next_week_id := 1, today := 10, today_year := 2024 }

/-- C5: posting a "PAYIN/OUT" transaction immediately adds its value to
the player's total_score at post time; posting a SESSION transaction
(via either entry point) leaves every player row — hence every
total_score — untouched. -/
theorem C5_posting_effects :
    (∀ (s : State) (pid : Nat) (v : Int) (cw : Week) (p : Player),
        firstByOrdering (currentWeeks s) = some cw →
        s.players.find? (fun q => q.id == pid) = some p →
        (exceptOk (add_transaction_htmx s pid .PAYIN_OUT v)).map
            (fun s2 => playerScore s2 pid)
          = some (playerScore s pid + v)) ∧
      (∀ (s : State) (pid : Nat) (wd : Weekday) (v : Int) (cw : Week),
          firstByOrdering (currentWeeks s) = some cw →
          s.players.any (fun q => q.id == pid) = true →
          (exceptOk (add_session_htmx s pid wd v)).map State.players = some s.players) ∧
      (∀ (s : State) (pid : Nat) (wd : Weekday) (v : Int) (descr : String) (cw : Week),
          firstByOrdering (currentWeeks s) = some cw →
          formOk s (some pid) .SESSION = true →
          (exceptOk (add_transaction s (some pid) .SESSION (some wd) v descr)).map
            State.players = some s.players) := by
  refine ⟨?_, ?_, ?_⟩
  · intro s pid v cw p hc hfind
    have hmem : p ∈ s.players := List.mem_of_find?_eq_some hfind
    have hp := List.find?_some hfind
    have hany : s.players.any (fun q => q.id == pid) = true :=
      List.any_eq_true.mpr ⟨p, hmem, hp⟩
    unfold add_transaction_htmx
    rw [if_neg (by simp), if_pos hany, get_current_week_eq s cw hc]
    dsimp only
    unfold playerScore
    dsimp only [createTx, exceptOk, Option.map]
    rw [find?_update s.players pid v p hfind, hfind]
  · intro s pid wd v cw hc hany
    unfold add_session_htmx
    rw [if_pos hany, get_current_week_eq s cw hc]
    rfl
  · intro s pid wd v descr cw hc hform
    unfold add_transaction
    rw [if_pos hform, get_current_week_eq s cw hc]
    rfl

/-- C5 witness: the PAYIN/OUT effect evaluated on `c5state`. -/
theorem C5_posting_effects_witness :
    (exceptOk (add_transaction_htmx c5state 0 .PAYIN_OUT 5000)).map
        (fun s2 => playerScore s2 0)
      = some (playerScore c5state 0 + 5000) :=
  C5_posting_effects.1 c5state 0 5000 wk2024 aPlayer (by decide) (by decide)

/-- A not-yet-reverted "PAYIN/OUT" transaction of +50.00 in the current
week, whose immediate posting left A's total_score at 50.00. -/
def c6tx : Transaction :=
  { id := 0, player := some 0, week := 0, transaction_type := .PAYIN_OUT,
    weekday := none, value := 5000, description := "", is_reverted := false }

def c6state : State :=
  { players := [{ aPlayer with total_score := 5000 }], weeks := [wk2024],
    transactions := [c6tx],
    pool_balance := 0, next_tx_id := 1, next_week_id := 1, today := 10, today_year := 2024 }

/-- C6, counterexample: successfully reverting the PAYIN/OUT transaction
leaves A's total_score at 50.00; the claimed post-revert value
(old minus the transaction's value, i.e. 0.00) differs. -/
theorem C6_counterexample :
    (exceptOk (revert_transaction c6state 0)).map (fun s2 => playerScore s2 0)
        = some 5000 ∧
      playerScore c6state 0 - c6tx.value ≠ 5000 := by
  refine ⟨by decide, by decide⟩

/-- C6 (amended): a successful revert — of a PAYIN/OUT transaction or of
any other — never touches any player row; the immediate-posting side
effect on total_score is NOT undone, the undo exists only as the
compensating ledger row. -/
theorem C6_revert_preserves_scores (s : State) (txid : Nat) (s2 : State)
    (h : revert_transaction s txid = .ok s2) : s2.players = s.players := by
  unfold revert_transaction at h
  cases hf : s.transactions.find? (fun x => x.id == txid) with
  | none => rw [hf] at h; exact absurd h (by simp)
  | some t =>
      rw [hf] at h
      dsimp only at h
      cases hg : get_current_week s with
      | error e => rw [hg] at h; exact absurd h (by simp)
      | ok r =>
          obtain ⟨cw, s1⟩ := r
          rw [hg] at h
          dsimp only at h
          split at h
          · exact absurd h (by simp)
          · split at h
            · exact absurd h (by simp)
            · injection h with h
              rw [← h, revert_players]
              exact get_current_week_players s hg

def c6after : State := (exceptOk (revert_transaction c6state 0)).getD c6state

/-- C6 witness: the amended statement evaluated on `c6state`. -/
theorem C6_revert_preserves_scores_witness : c6after.players = c6state.players :=
  C6_revert_preserves_scores c6state 0 c6after (by rfl)

/-- C7: a successful revert maps the ledger to: the old rows with only
the original's `is_reverted` flag flipped (no value mutated), plus
exactly one appended compensating row with the same player, week, type
and weekday, the negated value, and a description referencing the
original's id. -/
theorem C7_revert_compensating (s : State) (txid : Nat) (t : Transaction) (cw : Week)
    (hfind : s.transactions.find? (fun x => x.id == txid) = some t)
    (hc : firstByOrdering (currentWeeks s) = some cw)
    (hweek : t.week = cw.id) (hrev : t.is_reverted = false)
    (hwf : ∀ u ∈ s.transactions, u.id < s.next_tx_id) :
    revert_transaction s txid =
      .ok { s with transactions := markReverted s.transactions t.id ++ [compTxOf s t],
                   next_tx_id := s.next_tx_id + 1 } :=
  revert_transaction_ok s txid t cw hfind hc hweek hrev hwf

def c7tx : Transaction :=
  { id := 0, player := some 0, week := 0, transaction_type := .SESSION,
    weekday := some .Tuesday, value := 2500, description := "", is_reverted := false }

def c7state : State :=
  { players := [aPlayer], weeks := [wk2024], transactions := [c7tx],
    pool_balance := 0, next_tx_id := 1, next_week_id := 1, today := 10, today_year := 2024 }

/-- C7 witness: the revert shape evaluated on `c7state`. -/
theorem C7_revert_compensating_witness :
    revert_transaction c7state 0 =
      .ok { c7state with
            transactions := markReverted c7state.transactions c7tx.id
              ++ [compTxOf c7state c7tx],
            next_tx_id := c7state.next_tx_id + 1 } :=
  C7_revert_compensating c7state 0 c7tx wk2024 (by decide) (by decide) (by decide)
    (by decide) (by decide)

/-- C8: reverting fails with the stale-week error when the transaction's
week is not the current week, fails with the already-reverted error when
the flag is set (stale-week having priority when both hold), and — since
a successful revert sets the flag — reverting the same transaction twice
fails with the already-reverted error; the failing calls perform no
write. -/
theorem C8_revert_failures (s : State) (txid : Nat) (t : Transaction) (cw : Week)
    (hfind : s.transactions.find? (fun x => x.id == txid) = some t)
    (hc : firstByOrdering (currentWeeks s) = some cw) :
    (t.week ≠ cw.id → revert_transaction s txid = .error .staleWeek) ∧
      (t.week = cw.id → t.is_reverted = true →
        revert_transaction s txid = .error .alreadyReverted) ∧
      (∀ s2 : State, t.week = cw.id → t.is_reverted = false →
        (∀ u ∈ s.transactions, u.id < s.next_tx_id) →
        revert_transaction s txid = .ok s2 →
        revert_transaction s2 txid = .error .alreadyReverted) := by
  refine ⟨?_, ?_, ?_⟩
  · intro hne
    unfold revert_transaction
    rw [hfind, get_current_week_eq s cw hc]
    dsimp only
    rw [if_pos hne]
  · intro hweek hrev
    unfold revert_transaction
    rw [hfind, get_current_week_eq s cw hc]
    dsimp only
    rw [if_neg (by simp [hweek]), if_pos hrev]
  · intro s2 hweek hrev hwf heq
    have htid : t.id = txid := by
      have h1 := List.find?_some hfind
      simpa using h1
    subst htid
    rw [revert_transaction_ok s t.id t cw hfind hc hweek hrev hwf] at heq
    injection heq with heq
    have hmap : (markReverted s.transactions t.id).find? (fun x => x.id == t.id)
        = some { t with is_reverted := true } := by
      unfold markReverted
      rw [find?_map_pred _ _ (fun x => by split <;> rfl) s.transactions, hfind]
      simp
    have hfind2 : (markReverted s.transactions t.id ++ [compTxOf s t]).find?
        (fun x => x.id == t.id) = some { t with is_reverted := true } := by
      rw [List.find?_append, hmap, Option.or_some]
    have htx : s2.transactions = markReverted s.transactions t.id ++ [compTxOf s t] := by
      rw [← heq]
    have hc2 : firstByOrdering (currentWeeks s2) = some cw := by
      rw [← heq]; exact hc
    unfold revert_transaction
    rw [htx, hfind2, get_current_week_eq s2 cw hc2]
    dsimp only
    rw [if_neg (by simp [hweek])]
    rfl

/-- A stale (week 9) transaction while week 0 is current. -/
def c8tx : Transaction :=
  { id := 0, player := some 0, week := 9, transaction_type := .SESSION,
    weekday := some .Monday, value := 100, description := "", is_reverted := false }

def c8state : State :=
  { players := [aPlayer], weeks := [wk2024], transactions := [c8tx],
    pool_balance := 0, next_tx_id := 1, next_week_id := 1, today := 10, today_year := 2024 }

/-- C8 witness: the stale-week failure evaluated on `c8state`. -/
theorem C8_revert_failures_witness :
    revert_transaction c8state 0 = .error .staleWeek :=
  (C8_revert_failures c8state 0 c8tx wk2024 (by decide) (by decide)).1 (by decide)

end Mahjong
